import Mathlib

/-!
Verification development for the Panion meal-planner repository.
The repository's visible source is the React frontend (`App.js`); the
backend core (lexical extractor, local heuristic parser, parser selector,
recipe matcher, search engine) is specified in `spec.md` §3–§4 and is
modelled here from that specification.  Frontend functions
(`formatNutritionValue`, `handlePlanSubmit`, `handleSearchSubmit`) are
embedded directly from `frontend/src/App.js`.
-/

namespace Panion

/-! ### Data model (spec §3) -/

/-- Modelled from the spec: `ParsedQuery` (§3) — structured intent from a
free-text prompt.  `excluded_ingredients` is a set of lowercase strings,
represented as a deduplicated list. -/
structure ParsedQuery where
  num_meals : Nat
  serves : Nat
  ingredient_keyword : String
  excluded_ingredients : List String
  raw_prompt : String
deriving DecidableEq, Repr

/-- Modelled from the spec: `Recipe` (§3) — read-only repository row with
stable `id`, ordered ingredients/instructions, tags, preparation time and
optional nutrition record of named numeric fields. -/
structure Recipe where
  id : Nat
  name : String
  ingredients : List String
  instructions : List String
  tags : List String
  minutes : Nat
  nutrition : Option (List (String × Int))
deriving DecidableEq, Repr

/-- Modelled from the spec: `SearchResult` (§3) plus the `no_results`
flag decided by the matcher / search engine. -/
structure SearchResult where
  recipes : List Recipe
  total : Nat
  count : Nat
  limit : Nat
  offset : Nat
  no_results : Bool
deriving DecidableEq, Repr

/-- Modelled from the spec: raw `SearchFilters` input (§3) before
validation/clamping by the Search Engine; `limit` and `offset` arrive as
integers from the query string. -/
structure RawFilters where
  text_query : String
  ingredient : String
  tag : String
  max_minutes : Option Int
  limit : Int
  offset : Int
deriving DecidableEq, Repr

/-- Modelled from the spec: `InvalidFilterError` is surfaced as a client
error with the offending field named (§7). -/
inductive SearchError where
  | invalidFilter (field : String)
deriving DecidableEq, Repr

/-- Modelled from the spec: `UpstreamError` kinds of the Remote Parser
Adapter (§4.3): timeout, malformed response, rate limit, schema-validation
failure. -/
inductive UpstreamError where
  | timeout
  | malformed
  | rateLimited
  | schemaInvalid
deriving DecidableEq, Repr

/-! ### Lexical Extractor (spec §4.1)

Matching is case-insensitive and whitespace-normalized: the raw prompt is
lowercased, every non-alphanumeric character becomes a space, and the
result is split into nonempty tokens. -/

/-- Modelled from the spec: character normalization — lowercase, and map
punctuation/whitespace to a plain space. -/
def normChar (c : Char) : Char :=
  if c.isAlphanum then c.toLower else ' '

/-- Split a normalized character list into space-separated words; `acc`
holds the (reversed) characters of the word currently being read. -/
def wordsAux : List Char → List Char → List String
  | [], acc => if acc.isEmpty then [] else [String.mk acc.reverse]
  | c :: cs, acc =>
      if c = ' ' then
        if acc.isEmpty then wordsAux cs []
        else String.mk acc.reverse :: wordsAux cs []
      else wordsAux cs (c :: acc)

/-- Modelled from the spec: tokenization used by the Lexical Extractor —
lowercased, whitespace-normalized, punctuation-free tokens. -/
def tokens (raw : String) : List String :=
  wordsAux (raw.data.map normChar) []

/-- Modelled from the spec: number-words recognised by the extractor
("three" → 3, "two" → 2, …). -/
def numberWords : List (String × Nat) :=
  [("one", 1), ("two", 2), ("three", 3), ("four", 4), ("five", 5),
   ("six", 6), ("seven", 7), ("eight", 8), ("nine", 9), ("ten", 10),
   ("eleven", 11), ("twelve", 12)]

/-- Value of a number-word token, if any. -/
def numberWord? (t : String) : Option Nat :=
  (numberWords.find? (fun p => p.1 == t)).map Prod.snd

/-- Decimal value of a digit list. -/
def digitsVal (cs : List Char) : Nat :=
  cs.foldl (fun n c => n * 10 + (c.toNat - 48)) 0

/-- Value of an all-digit numeral token, if any. -/
def numeral? (t : String) : Option Nat :=
  if !t.data.isEmpty && t.data.all Char.isDigit then some (digitsVal t.data)
  else none

/-- Modelled from the spec: a token's numeric value, from numerals or
number-words (§4.1). -/
def numberValue? (t : String) : Option Nat :=
  match numeral? t with
  | some n => some n
  | none => numberWord? t

/-- Words that mark a following number as a serving count ("feed N
people"). -/
def servingWordsBefore : List String :=
  ["feed", "feeds", "serve", "serves", "for"]

/-- Words that mark a preceding number as a serving count ("N people"). -/
def servingWordsAfter : List String :=
  ["people", "person", "persons", "adults", "guests"]

/-- Whether the token at index `j` sits in a serving-count context. -/
def isServingCtx (ts : List String) (j : Nat) : Bool :=
  servingWordsAfter.contains (ts.getD (j + 1) "") ||
    (j != 0 && servingWordsBefore.contains (ts.getD (j - 1) ""))

/-- Whether the token at index `j` is a numeral or number-word. -/
def isNumberIdx (ts : List String) (j : Nat) : Bool :=
  (numberValue? (ts.getD j "")).isSome

/-- Modelled from the spec: invalid signals are reported as absent, never
guessed (§4.1); a zero count/serving hint would break the `ParsedQuery`
invariant `num_meals ≥ 1 ∧ serves ≥ 1` (§3), so it is treated as absent. -/
def posHint (o : Option Nat) : Option Nat :=
  o.bind (fun n => if 1 ≤ n then some n else none)

/-- Modelled from the spec: `serving_hint` — first number token associated
with a serving phrase such as "feed N people" (§4.1). -/
def servingHint (ts : List String) : Option Nat :=
  match (List.range ts.length).find? (fun j => isNumberIdx ts j && isServingCtx ts j) with
  | some j => posHint (numberValue? (ts.getD j ""))
  | none => none

/-- Modelled from the spec: `count_hint` — first number token not in a
serving context (§4.1). -/
def countHint (ts : List String) : Option Nat :=
  match (List.range ts.length).find? (fun j => isNumberIdx ts j && !isServingCtx ts j) with
  | some j => posHint (numberValue? (ts.getD j ""))
  | none => none

/-- Modelled from the spec: negation markers such as "no", "without",
"allergic to" (§4.1). -/
def negationMarkers : List String :=
  ["no", "not", "without", "allergic", "avoid", "exclude", "excluding"]

/-- Width (in tokens) of a negation span after its marker. -/
def negationWindow : Nat := 3

/-- Modelled from the spec: whether token index `j` lies inside a
`negation_span`, i.e. within `negationWindow` tokens after a negation
marker (§4.1). -/
def negated (ts : List String) (j : Nat) : Bool :=
  (List.range ts.length).any
    (fun i => i < j && j ≤ i + negationWindow && negationMarkers.contains (ts.getD i ""))

/-- Modelled from the spec: indices of tokens matched against the
known-ingredient vocabulary (`ingredient_candidates`, §4.1), in order. -/
def candidateIdxs (vocab : List String) (ts : List String) : List Nat :=
  (List.range ts.length).filter (fun j => vocab.contains (ts.getD j ""))

/-! ### Local Heuristic Parser (spec §4.2) -/

/-- Modelled from the spec: `excluded_ingredients` = candidates found
inside negation spans (§4.2 step 5), deduplicated. -/
def excludedIngredients (vocab : List String) (ts : List String) : List String :=
  (((candidateIdxs vocab ts).filter (fun j => negated ts j)).map
    (fun j => ts.getD j "")).dedup

/-- Modelled from the spec: `ingredient_keyword` = first ingredient
candidate not inside a negation span (§4.2 step 4), subject to the
tie-break that a token also appearing negated is excluded, not chosen
(§4.2 "exclusion wins"); `""` when no such candidate exists. -/
def ingredientKeyword (vocab : List String) (ts : List String) : String :=
  match (candidateIdxs vocab ts).find?
      (fun j => !negated ts j && !(excludedIngredients vocab ts).contains (ts.getD j "")) with
  | some j => ts.getD j ""
  | none => ""

/-- Modelled from the spec: the Local Heuristic Parser's
`parse(raw_prompt) -> ParsedQuery` (§4.2), a total function over a given
known-ingredient vocabulary; defaults `num_meals = 3`, `serves = 2`. -/
def parsePrompt (vocab : List String) (raw : String) : ParsedQuery :=
  let ts := tokens raw
  { num_meals := (countHint ts).getD 3
    serves := (servingHint ts).getD 2
    ingredient_keyword := ingredientKeyword vocab ts
    excluded_ingredients := excludedIngredients vocab ts
    raw_prompt := raw }

/-- Default known-ingredient vocabulary used for concrete instances. -/
def sampleVocab : List String :=
  ["chicken", "beef", "pork", "fish", "nuts", "pasta", "rice", "tofu"]

/-! ### Parser Selector (spec §4.4) -/

/-- Result of the composed parse function: the `ParsedQuery` plus the
observable degraded-mode signal. -/
structure ParseOutcome where
  query : ParsedQuery
  degraded : Bool
deriving DecidableEq, Repr

/-- Modelled from the spec: the Parser Selector's composed parse function
(§4.4).  When remote parsing is enabled it calls the Remote Parser Adapter
first and falls back to the Local Heuristic Parser on any `UpstreamError`,
emitting the degraded-mode signal; the caller always receives a
`ParseOutcome`, never an error. -/
def selectParse (remoteEnabled : Bool) (vocab : List String)
    (remote : String → Except UpstreamError ParsedQuery) (raw : String) : ParseOutcome :=
  if remoteEnabled then
    match remote raw with
    | .ok q => { query := q, degraded := false }
    | .error _ => { query := parsePrompt vocab raw, degraded := true }
  else { query := parsePrompt vocab raw, degraded := false }

/-! ### Recipe Matcher (spec §4.5) -/

/-- Lowercase a string, for case-insensitive ingredient comparison. -/
def lowerStr (s : String) : String :=
  String.mk (s.data.map Char.toLower)

/-- Ordering key used by the repository: identifier ascending (§4.5
step 2). -/
def byId (a b : Recipe) : Prop :=
  a.id ≤ b.id

instance : DecidableRel byId :=
  fun a b => (inferInstance : Decidable (a.id ≤ b.id))

instance : IsTotal Recipe byId :=
  ⟨fun a b => Nat.le_total a.id b.id⟩

instance : IsTrans Recipe byId :=
  ⟨fun _ _ _ h h2 => Nat.le_trans h h2⟩

/-- Modelled from the spec: the repository keyword filter — unconstrained
when the keyword is empty, otherwise the recipe must list an ingredient
equal to the keyword, case-insensitively (§4.5 step 1, §6). -/
def hasKeyword (kw : String) (r : Recipe) : Bool :=
  kw == "" || r.ingredients.any (fun ing => lowerStr ing == lowerStr kw)

/-- Modelled from the spec: `findByKeyword(keyword) -> [Recipe]` ordered
by identifier ascending (§6, §4.5 step 2). -/
def findByKeyword (repo : List Recipe) (kw : String) : List Recipe :=
  List.insertionSort byId (repo.filter (hasKeyword kw))

/-- Modelled from the spec: whether a candidate's ingredient list
intersects `excluded_ingredients` — a case-insensitive containment check
on ingredient names, not a substring match on instructions (§4.5
step 3). -/
def excludesRecipe (excluded : List String) (r : Recipe) : Bool :=
  r.ingredients.any (fun ing => excluded.any (fun ex => lowerStr ing == lowerStr ex))

/-- Modelled from the spec: the Recipe Matcher's
`match(query, repo) -> SearchResult` (§4.5): fetch candidates by keyword
ordered by id, drop candidates hitting `excluded_ingredients`, select the
first `num_meals` survivors; `total` is the post-filter pre-truncation
pool size, `count` the truncated size, `no_results` whether the selection
is empty. -/
def matchRecipes (q : ParsedQuery) (repo : List Recipe) : SearchResult :=
  let survivors :=
    (findByKeyword repo q.ingredient_keyword).filter
      (fun r => !excludesRecipe q.excluded_ingredients r)
  let selected := survivors.take q.num_meals
  { recipes := selected
    total := survivors.length
    count := selected.length
    limit := q.num_meals
    offset := 0
    no_results := selected.isEmpty }

/-! ### Search Engine (spec §4.6) -/

/-- Whether `needle` occurs as a contiguous substring of `hay`. -/
def strContains (hay needle : String) : Bool :=
  (List.range (hay.data.length + 1)).any
    (fun i => needle.data.isPrefixOf (hay.data.drop i))

/-- Modelled from the spec: whether a recipe satisfies all present
filters, combined with AND semantics; absent filters impose no constraint
(§3, §4.6). -/
def matchesFilters (f : RawFilters) (r : Recipe) : Bool :=
  (f.text_query == "" || strContains (lowerStr r.name) (lowerStr f.text_query)) &&
  (f.ingredient == "" || r.ingredients.any (fun ing => lowerStr ing == lowerStr f.ingredient)) &&
  (f.tag == "" || r.tags.any (fun t => lowerStr t == lowerStr f.tag)) &&
  (match f.max_minutes with
   | none => true
   | some m => decide ((r.minutes : Int) ≤ m))

/-- Modelled from the spec: the repository count query
`countByFilters(filters) -> int` (§6). -/
def countByFilters (repo : List Recipe) (f : RawFilters) : Nat :=
  (repo.filter (matchesFilters f)).length

/-- Modelled from the spec: the repository paginated fetch
`findByFilters(filters, limit, offset) -> [Recipe]` in the repository's
natural order (§6, §4.6). -/
def findByFilters (repo : List Recipe) (f : RawFilters) (lim off : Nat) : List Recipe :=
  ((repo.filter (matchesFilters f)).drop off).take lim

/-- Modelled from the spec: the Search Engine's
`search(filters, repo)` (§4.6): rejects a negative `max_minutes` with
`InvalidFilterError`, clamps `limit` to `[1, 100]` and `offset` to `≥ 0`,
then combines a count query with a paginated fetch. -/
def searchEngine (f : RawFilters) (repo : List Recipe) : Except SearchError SearchResult :=
  if f.max_minutes.getD 0 < 0 then
    .error (.invalidFilter "max_minutes")
  else
    let lim := (min 100 (max 1 f.limit)).toNat
    let off := (max 0 f.offset).toNat
    let page := findByFilters repo f lim off
    .ok
      { recipes := page
        total := countByFilters repo f
        count := page.length
        limit := lim
        offset := off
        no_results := page.isEmpty }

/-! ### Frontend model (`frontend/src/App.js`) -/

/-- A JavaScript value as it reaches `formatNutritionValue`: `null`,
`undefined`, a number (modelled as a rational), a string, or some other
value such as a boolean. -/
inductive JSVal where
  | null
  | undefined
  | num (q : ℚ)
  | str (s : String)
  | bool (b : Bool)
deriving DecidableEq, Repr

/-- `toFixed(1)` on a number: round to the nearest tenth (ties toward
`+∞`, as the ECMAScript `toFixed` tie-break picks the larger candidate)
and render with exactly one decimal digit. -/
def toFixed1 (q : ℚ) : String :=
  let n : ℤ := round (q * 10)
  (if n < 0 then "-" else "") ++ toString (n.natAbs / 10) ++ "." ++ toString (n.natAbs % 10)

/-- `formatNutritionValue` from `App.js` lines 28–32: `null`/`undefined`
become `"N/A"`, integer numbers pass through, other numbers are formatted
with `toFixed(1)`, and anything else is returned unchanged. -/
def formatNutritionValue : JSVal → JSVal
  | .null => .str "N/A"
  | .undefined => .str "N/A"
  | .num q => if q.den = 1 then .num q else .str (toFixed1 q)
  | v => v

/-- The search metadata object built by `handleSearchSubmit`. -/
structure SearchMeta where
  total : Nat
  count : Nat
  limit : Nat
  offset : Nat
  activeFilters : List (String × String)
deriving DecidableEq, Repr

/-- The pieces of React state in `App` that the submit handlers read and
write. -/
structure AppState where
  searchFilters : List (String × String)
  recipes : List Recipe
  parsedQuery : Option ParsedQuery
  searchMeta : Option SearchMeta
  noResults : Bool
  loading : Bool
  error : String
deriving DecidableEq, Repr

/-- Body of a successful `/plan-meals` response as `handlePlanSubmit`
reads it (`data.recipes`, `data.query`, `data.no_results`). -/
structure PlanResponse where
  recipes : Option (List Recipe)
  query : Option ParsedQuery
  no_results : Bool
deriving DecidableEq, Repr

/-- Body of a successful `/recipes/search` response as
`handleSearchSubmit` reads it. -/
structure SearchResponse where
  recipes : Option (List Recipe)
  total : Nat
  count : Nat
  limit : Nat
  offset : Nat
deriving DecidableEq, Repr

/-- Outcome of a `fetch` call: network failure (rejected promise),
non-2xx response (the handler throws), or a parsed JSON body. -/
inductive FetchOutcome (α : Type) where
  | networkError
  | httpError (status : Nat)
  | success (data : α)
deriving DecidableEq, Repr

/-- Whether a fetch outcome takes the handler into its `catch` block. -/
def FetchOutcome.failed {α : Type} : FetchOutcome α → Bool
  | .success _ => false
  | _ => true

/-- Error message set by `handlePlanSubmit`'s catch block. -/
def planErrorMsg : String :=
  "Something went wrong generating the meal plan. Check the backend logs."

/-- Error message set by `handleSearchSubmit`'s catch block. -/
def searchErrorMsg : String :=
  "Something went wrong running recipe search."

/-- `handlePlanSubmit` from `App.js` lines 38–74 as a state transition:
it first clears recipes/parsedQuery/searchMeta/noResults and the error,
then either installs the response data or, on any failure, sets only the
error message; `loading` is reset in `finally`. -/
def handlePlanSubmit (s : AppState) (outcome : FetchOutcome PlanResponse) : AppState :=
  let cleared :=
    { s with loading := true, error := "", recipes := [],
             searchMeta := none, parsedQuery := none, noResults := false }
  match outcome with
  | .success d =>
      { cleared with recipes := d.recipes.getD [], parsedQuery := d.query,
                     noResults := d.no_results, loading := false }
  | _ => { cleared with error := planErrorMsg, loading := false }

/-- `handleSearchSubmit` from `App.js` lines 76–116 as a state
transition: clears the same state, then on success installs the recipes,
`noResults` (empty returned list) and the search metadata with the active
(nonempty after trimming) filters; on any failure sets only the error
message. -/
def handleSearchSubmit (s : AppState) (outcome : FetchOutcome SearchResponse) : AppState :=
  let cleared :=
    { s with loading := true, error := "", recipes := [],
             parsedQuery := none, searchMeta := none, noResults := false }
  match outcome with
  | .success d =>
      let rs := d.recipes.getD []
      { cleared with
          recipes := rs
          noResults := rs.isEmpty
          searchMeta := some
            { total := d.total, count := d.count, limit := d.limit, offset := d.offset,
              activeFilters := s.searchFilters.filter (fun kv => kv.2.trim != "") }
          loading := false }
  | _ => { cleared with error := searchErrorMsg, loading := false }

/-! ### Concrete sample data for witnesses -/

/-- A chicken recipe with no nuts, id 1. -/
def sampleRecipeA : Recipe :=
  { id := 1, name := "Chicken bake", ingredients := ["chicken", "rice"],
    instructions := ["bake the chicken", "serve with rice"],
    tags := ["dinner"], minutes := 40, nutrition := some [("calories", 500)] }

/-- A nut-laden recipe, id 2. -/
def sampleRecipeB : Recipe :=
  { id := 2, name := "Nut roast", ingredients := ["nuts", "chicken"],
    instructions := ["roast the nuts"], tags := ["dinner"], minutes := 30,
    nutrition := none }

/-- A query excluding nuts. -/
def sampleQuery : ParsedQuery :=
  { num_meals := 3, serves := 2, ingredient_keyword := "chicken",
    excluded_ingredients := ["nuts"], raw_prompt := "chicken but no nuts" }

/-- Valid raw search filters. -/
def sampleFilters : RawFilters :=
  { text_query := "", ingredient := "chicken", tag := "", max_minutes := some 45,
    limit := 10, offset := 0 }

/-- Raw search filters with a negative `max_minutes`. -/
def negMinutesFilters : RawFilters :=
  { text_query := "", ingredient := "", tag := "", max_minutes := some (-5),
    limit := 10, offset := 0 }

/-- An initial frontend state with stale data in every field. -/
def sampleState : AppState :=
  { searchFilters := [("q", ""), ("ingredient", "chicken")],
    recipes := [sampleRecipeA],
    parsedQuery := some sampleQuery,
    searchMeta := some { total := 7, count := 1, limit := 10, offset := 0, activeFilters := [] },
    noResults := true, loading := false, error := "old error" }

/-- A prompt in which "chicken" occurs both inside and outside a negation
span. -/
def promptBoth : String :=
  "chicken dinner but absolutely no chicken stock"

/-- A remote parse function that always fails with a timeout. -/
def failingRemote : String → Except UpstreamError ParsedQuery :=
  fun _ => .error .timeout

/-! ## Theorems -/

/-! ### Helper lemmas -/

theorem posHint_pos {o : Option Nat} {n : Nat} (h : posHint o = some n) : 1 ≤ n := by
  cases o with
  | none => simp [posHint] at h
  | some m =>
    by_cases hm : 1 ≤ m
    · simp [posHint, hm] at h
      omega
    · simp [posHint, hm] at h

theorem countHint_pos {ts : List String} {n : Nat} (h : countHint ts = some n) : 1 ≤ n := by
  unfold countHint at h
  cases hf : (List.range ts.length).find?
      (fun j => isNumberIdx ts j && !isServingCtx ts j) with
  | none => rw [hf] at h; exact absurd h (by simp)
  | some j => rw [hf] at h; exact posHint_pos h

theorem servingHint_pos {ts : List String} {n : Nat} (h : servingHint ts = some n) : 1 ≤ n := by
  unfold servingHint at h
  cases hf : (List.range ts.length).find?
      (fun j => isNumberIdx ts j && isServingCtx ts j) with
  | none => rw [hf] at h; exact absurd h (by simp)
  | some j => rw [hf] at h; exact posHint_pos h

theorem num_meals_pos (vocab : List String) (raw : String) :
    1 ≤ (parsePrompt vocab raw).num_meals := by
  show 1 ≤ (countHint (tokens raw)).getD 3
  cases hc : countHint (tokens raw) with
  | none => simp
  | some n => simpa using countHint_pos hc

theorem serves_pos (vocab : List String) (raw : String) :
    1 ≤ (parsePrompt vocab raw).serves := by
  show 1 ≤ (servingHint (tokens raw)).getD 2
  cases hc : servingHint (tokens raw) with
  | none => simp
  | some n => simpa using servingHint_pos hc

/-- C2: the Local Heuristic Parser's `parse` is a total Lean function —
for every vocabulary and every input string it returns a `ParsedQuery`
value (never a failure), and that value satisfies the documented
invariant `num_meals ≥ 1 ∧ serves ≥ 1`. -/
theorem parsePrompt_total_valid (vocab : List String) (raw : String) :
    1 ≤ (parsePrompt vocab raw).num_meals ∧ 1 ≤ (parsePrompt vocab raw).serves :=
  ⟨num_meals_pos vocab raw, serves_pos vocab raw⟩

/-- C3: for every prompt none of whose tokens is a numeral or a
number-word, parsing yields the documented defaults `num_meals = 3` and
`serves = 2`. -/
theorem parsePrompt_defaults (vocab : List String) (raw : String)
    (h : ∀ t ∈ tokens raw, numberValue? t = none) :
    (parsePrompt vocab raw).num_meals = 3 ∧ (parsePrompt vocab raw).serves = 2 := by
  have hnum : ∀ j ∈ List.range (tokens raw).length, isNumberIdx (tokens raw) j = false := by
    intro j hj
    rw [List.mem_range] at hj
    have hmem : (tokens raw)[j] ∈ tokens raw := List.getElem_mem hj
    simp [isNumberIdx, List.getD_eq_getElem?_getD, List.getElem?_eq_getElem hj, h _ hmem]
  constructor
  · show (countHint (tokens raw)).getD 3 = 3
    have hf : (List.range (tokens raw).length).find?
        (fun j => isNumberIdx (tokens raw) j && !isServingCtx (tokens raw) j) = none := by
      rw [List.find?_eq_none]
      intro j hj
      simp [hnum j hj]
    simp [countHint, hf]
  · show (servingHint (tokens raw)).getD 2 = 2
    have hf : (List.range (tokens raw).length).find?
        (fun j => isNumberIdx (tokens raw) j && isServingCtx (tokens raw) j) = none := by
      rw [List.find?_eq_none]
      intro j hj
      simp [hnum j hj]
    simp [servingHint, hf]

/-- Witness for C3 at a concrete number-free prompt. -/
theorem parsePrompt_defaults_witness :
    (parsePrompt sampleVocab "dinner ideas with chicken please").num_meals = 3 ∧
      (parsePrompt sampleVocab "dinner ideas with chicken please").serves = 2 :=
  parsePrompt_defaults sampleVocab "dinner ideas with chicken please" (by decide)

theorem mk_ne_empty {l : List Char} (h : l ≠ []) : String.mk l ≠ "" := by
  intro hcon
  apply h
  have hd := congrArg String.data hcon
  simpa using hd

theorem wordsAux_mem_ne_empty :
    ∀ (cs acc : List Char), ∀ t ∈ wordsAux cs acc, t ≠ "" := by
  intro cs
  induction cs with
  | nil =>
    intro acc t ht
    unfold wordsAux at ht
    split at ht
    · simp at ht
    · next ha =>
      simp only [List.mem_singleton] at ht
      subst ht
      apply mk_ne_empty
      simp only [ne_eq, List.reverse_eq_nil_iff]
      intro hacc
      exact ha (by simp [hacc])
  | cons c cs ih =>
    intro acc t ht
    unfold wordsAux at ht
    split at ht
    · split at ht
      · exact ih [] t ht
      · next ha =>
        rcases List.mem_cons.mp ht with h1 | h2
        · subst h1
          apply mk_ne_empty
          simp only [ne_eq, List.reverse_eq_nil_iff]
          intro hacc
          exact ha (by simp [hacc])
        · exact ih [] t h2
    · exact ih (c :: acc) t ht

theorem tokens_mem_ne_empty {raw : String} {t : String} (h : t ∈ tokens raw) : t ≠ "" :=
  wordsAux_mem_ne_empty _ _ t h

theorem mem_excludedIngredients {vocab : List String} {ts : List String} {tok : String}
    {j : Nat} (hj : j < ts.length) (htok : ts.getD j "" = tok) (hv : tok ∈ vocab)
    (hneg : negated ts j = true) : tok ∈ excludedIngredients vocab ts := by
  unfold excludedIngredients
  rw [List.mem_dedup]
  apply List.mem_map.mpr
  refine ⟨j, ?_, htok⟩
  rw [List.mem_filter]
  refine ⟨?_, hneg⟩
  unfold candidateIdxs
  rw [List.mem_filter]
  refine ⟨List.mem_range.mpr hj, ?_⟩
  rw [htok]
  simpa using hv

/-- C8: if an ingredient token from the vocabulary occurs in the prompt
both inside a negation span and outside one, the parser puts it into
`excluded_ingredients` and does not choose it as `ingredient_keyword` —
exclusion wins. -/
theorem exclusionWins (vocab : List String) (raw tok : String)
    (hv : tok ∈ vocab)
    (hneg : ∃ j, j < (tokens raw).length ∧ (tokens raw).getD j "" = tok ∧
      negated (tokens raw) j = true)
    (hpos : ∃ j, j < (tokens raw).length ∧ (tokens raw).getD j "" = tok ∧
      negated (tokens raw) j = false) :
    tok ∈ (parsePrompt vocab raw).excluded_ingredients ∧
      (parsePrompt vocab raw).ingredient_keyword ≠ tok := by
  obtain ⟨j, hj, htok, hnegj⟩ := hneg
  have hex : tok ∈ excludedIngredients vocab (tokens raw) :=
    mem_excludedIngredients hj htok hv hnegj
  refine ⟨hex, ?_⟩
  show ingredientKeyword vocab (tokens raw) ≠ tok
  unfold ingredientKeyword
  cases hf : (candidateIdxs vocab (tokens raw)).find?
      (fun i => !negated (tokens raw) i &&
        !(excludedIngredients vocab (tokens raw)).contains ((tokens raw).getD i "")) with
  | none =>
    intro hcon
    have hcon2 : "" = tok := hcon
    have hmem2 : tok ∈ tokens raw := by
      rw [← htok]
      simp only [List.getD_eq_getElem?_getD, List.getElem?_eq_getElem hj, Option.getD_some]
      exact List.getElem_mem hj
    exact tokens_mem_ne_empty hmem2 hcon2.symm
  | some i =>
    intro hcon
    have hcon2 : (tokens raw).getD i "" = tok := hcon
    have hp := List.find?_some hf
    simp only [Bool.and_eq_true, Bool.not_eq_true'] at hp
    rw [hcon2] at hp
    have hmemb := hp.2
    rw [List.contains_eq_any_beq] at hmemb
    have hany : (excludedIngredients vocab (tokens raw)).any (fun x => tok == x) = true :=
      List.any_eq_true.mpr ⟨tok, hex, by simp⟩
    rw [hany] at hmemb
    exact absurd hmemb (by simp)

/-- Witness for C8: in `promptBoth`, "chicken" occurs negated (index 5,
after "no") and non-negated (index 0). -/
theorem exclusionWins_witness :
    "chicken" ∈ (parsePrompt sampleVocab promptBoth).excluded_ingredients ∧
      (parsePrompt sampleVocab promptBoth).ingredient_keyword ≠ "chicken" :=
  exclusionWins sampleVocab promptBoth "chicken" (by decide)
    ⟨5, by decide, by decide, by decide⟩ ⟨0, by decide, by decide, by decide⟩

/-! ### Recipe Matcher -/

theorem mem_matchRecipes_not_excluded {q : ParsedQuery} {repo : List Recipe} {r : Recipe}
    (hr : r ∈ (matchRecipes q repo).recipes) :
    excludesRecipe q.excluded_ingredients r = false := by
  have hr2 : r ∈ (findByKeyword repo q.ingredient_keyword).filter
      (fun s => !excludesRecipe q.excluded_ingredients s) :=
    List.mem_of_mem_take hr
  have := (List.mem_filter.mp hr2).2
  simpa using this

/-- C1: every recipe in the matcher's result has an ingredient list
disjoint from the query's `excluded_ingredients` under case-insensitive
comparison of ingredient names. -/
theorem matchRecipes_respects_exclusions (q : ParsedQuery) (repo : List Recipe)
    (r : Recipe) (hr : r ∈ (matchRecipes q repo).recipes)
    (ing : String) (hing : ing ∈ r.ingredients)
    (ex : String) (hex : ex ∈ q.excluded_ingredients) :
    lowerStr ing ≠ lowerStr ex := by
  have hfalse := mem_matchRecipes_not_excluded hr
  unfold excludesRecipe at hfalse
  simp only [List.any_eq_false, Bool.not_eq_true, beq_iff_eq] at hfalse
  exact hfalse ing hing ex hex

/-- Witness for C1: with "nuts" excluded, the returned chicken recipe's
ingredients are all distinct from "nuts". -/
theorem matchRecipes_respects_exclusions_witness :
    lowerStr "chicken" ≠ lowerStr "nuts" :=
  matchRecipes_respects_exclusions sampleQuery [sampleRecipeB, sampleRecipeA]
    sampleRecipeA (by decide) "chicken" (by decide) "nuts" (by decide)

theorem sorted_perm_nodup_id_eq :
    ∀ {l₁ l₂ : List Recipe}, l₁.Perm l₂ →
      l₁.Sorted byId → l₂.Sorted byId → (l₁.map Recipe.id).Nodup → l₁ = l₂ := by
  intro l₁
  induction l₁ with
  | nil =>
    intro l₂ hp _ _ _
    exact hp.nil_eq
  | cons a t ih =>
    intro l₂ hp hs₁ hs₂ hnd
    cases l₂ with
    | nil => exact absurd hp.symm.nil_eq (by simp)
    | cons b t₂ =>
      have hab : a = b := by
        have hbl : b ∈ a :: t := hp.symm.subset (List.mem_cons_self b t₂)
        rcases List.mem_cons.mp hbl with hba | hbt
        · exact hba.symm
        · have h₁ : byId a b := List.rel_of_sorted_cons hs₁ b hbt
          have hal : a ∈ b :: t₂ := hp.subset (List.mem_cons_self a t)
          rcases List.mem_cons.mp hal with hba | hat
          · exact hba
          · have h₂ : byId b a := List.rel_of_sorted_cons hs₂ a hat
            have hid : a.id = b.id := Nat.le_antisymm h₁ h₂
            have hbid : b.id ∈ t.map Recipe.id := List.mem_map.mpr ⟨b, hbt, rfl⟩
            rw [← hid] at hbid
            have hnotin := (List.nodup_cons.mp hnd).1
            exact absurd hbid hnotin
      subst hab
      have hperm : t.Perm t₂ := hp.cons_inv
      have ht₁ : t.Sorted byId := hs₁.of_cons
      have ht₂ : t₂.Sorted byId := hs₂.of_cons
      have hndt : (t.map Recipe.id).Nodup := (List.nodup_cons.mp hnd).2
      rw [ih hperm ht₁ ht₂ hndt]

theorem findByKeyword_perm_eq {repo₁ repo₂ : List Recipe} (kw : String)
    (hperm : repo₁.Perm repo₂) (hnd : (repo₁.map Recipe.id).Nodup) :
    findByKeyword repo₁ kw = findByKeyword repo₂ kw := by
  apply sorted_perm_nodup_id_eq
  · exact (List.perm_insertionSort byId _).trans
      ((hperm.filter (hasKeyword kw)).trans (List.perm_insertionSort byId _).symm)
  · exact List.sorted_insertionSort byId _
  · exact List.sorted_insertionSort byId _
  · have hsub : List.Sublist ((repo₁.filter (hasKeyword kw)).map Recipe.id)
        (repo₁.map Recipe.id) :=
      (List.filter_sublist repo₁).map Recipe.id
    have hndf : ((repo₁.filter (hasKeyword kw)).map Recipe.id).Nodup :=
      hnd.sublist hsub
    exact (((List.perm_insertionSort byId
      (repo₁.filter (hasKeyword kw))).map Recipe.id).nodup_iff).mpr hndf

/-- C7: matcher selection is deterministic and reproducible — against an
unchanged repository corpus (the same recipes with distinct identifiers,
in any enumeration order) an identical `ParsedQuery` yields identical
recipe ids in identical order, because candidates are sorted by
identifier ascending. -/
theorem matchRecipes_deterministic (q : ParsedQuery) (repo₁ repo₂ : List Recipe)
    (hperm : repo₁.Perm repo₂) (hnd : (repo₁.map Recipe.id).Nodup) :
    (matchRecipes q repo₁).recipes.map Recipe.id =
      (matchRecipes q repo₂).recipes.map Recipe.id := by
  unfold matchRecipes
  rw [findByKeyword_perm_eq q.ingredient_keyword hperm hnd]

/-- Witness for C7: two enumeration orders of the same two-recipe corpus
produce the same selected ids. -/
theorem matchRecipes_deterministic_witness :
    (matchRecipes sampleQuery [sampleRecipeA, sampleRecipeB]).recipes.map Recipe.id =
      (matchRecipes sampleQuery [sampleRecipeB, sampleRecipeA]).recipes.map Recipe.id :=
  matchRecipes_deterministic sampleQuery [sampleRecipeA, sampleRecipeB]
    [sampleRecipeB, sampleRecipeA] (List.Perm.swap sampleRecipeB sampleRecipeA [])
    (by decide)

/-! ### Search Engine -/

theorem maxMinutes_cond_false {f : RawFilters} (hmm : ∀ m ∈ f.max_minutes, 0 ≤ m) :
    ¬ (f.max_minutes.getD 0 < 0) := by
  cases hm : f.max_minutes with
  | none => simp
  | some m =>
    rw [hm] at hmm
    have := hmm m rfl
    simp
    omega

theorem searchEngine_ok {f : RawFilters} (repo : List Recipe)
    (hmm : ∀ m ∈ f.max_minutes, 0 ≤ m) :
    searchEngine f repo = .ok
      { recipes := findByFilters repo f (min 100 (max 1 f.limit)).toNat (max 0 f.offset).toNat
        total := countByFilters repo f
        count := (findByFilters repo f (min 100 (max 1 f.limit)).toNat
          (max 0 f.offset).toNat).length
        limit := (min 100 (max 1 f.limit)).toNat
        offset := (max 0 f.offset).toNat
        no_results := (findByFilters repo f (min 100 (max 1 f.limit)).toNat
          (max 0 f.offset).toNat).isEmpty } := by
  unfold searchEngine
  rw [if_neg (maxMinutes_cond_false hmm)]

/-- C4: for valid filters the search result satisfies
`count = len(recipes) ≤ limit`, `count = 0 → no_results`, and `total`
does not depend on `offset`. -/
theorem searchEngine_invariants (f : RawFilters) (repo : List Recipe)
    (hmm : ∀ m ∈ f.max_minutes, 0 ≤ m)
    (hl₁ : 1 ≤ f.limit) (hl₂ : f.limit ≤ 100) (ho : 0 ≤ f.offset) :
    ∃ res, searchEngine f repo = .ok res ∧
      res.count = res.recipes.length ∧
      res.count ≤ res.limit ∧
      (res.limit : Int) = f.limit ∧
      (res.count = 0 → res.no_results = true) ∧
      (∀ o₂ : Int, 0 ≤ o₂ →
        ∃ res₂, searchEngine { f with offset := o₂ } repo = .ok res₂ ∧
          res₂.total = res.total) := by
  refine ⟨_, searchEngine_ok repo hmm, rfl, ?_, ?_, ?_, ?_⟩
  · show (findByFilters repo f _ _).length ≤ (min 100 (max 1 f.limit)).toNat
    unfold findByFilters
    exact List.length_take_le _ _
  · show ((min 100 (max 1 f.limit)).toNat : Int) = f.limit
    have hmin : min 100 (max 1 f.limit) = f.limit := by omega
    rw [hmin]
    exact Int.toNat_of_nonneg (by omega)
  · intro h0
    show (findByFilters repo f _ _).isEmpty = true
    have hnil : findByFilters repo f (min 100 (max 1 f.limit)).toNat
        (max 0 f.offset).toNat = [] := List.length_eq_zero.mp h0
    simp [hnil]
  · intro o₂ _
    exact ⟨_, searchEngine_ok repo hmm, rfl⟩

/-- Witness for C4 at concrete valid filters over a two-recipe corpus. -/
theorem searchEngine_invariants_witness :
    ∃ res, searchEngine sampleFilters [sampleRecipeA, sampleRecipeB] = .ok res ∧
      res.count = res.recipes.length ∧
      res.count ≤ res.limit ∧
      (res.limit : Int) = sampleFilters.limit ∧
      (res.count = 0 → res.no_results = true) ∧
      (∀ o₂ : Int, 0 ≤ o₂ →
        ∃ res₂, searchEngine { sampleFilters with offset := o₂ }
            [sampleRecipeA, sampleRecipeB] = .ok res₂ ∧
          res₂.total = res.total) :=
  searchEngine_invariants sampleFilters [sampleRecipeA, sampleRecipeB]
    (by decide) (by decide) (by decide) (by decide)

/-- C5: the Search Engine clamps `limit` into `[1, 100]` and `offset` to
`≥ 0`, but rejects a negative `max_minutes` with `InvalidFilterError`
naming the field, rather than clamping it. -/
theorem searchEngine_validation (f : RawFilters) (repo : List Recipe) :
    ((∃ m, f.max_minutes = some m ∧ m < 0) →
      searchEngine f repo = .error (.invalidFilter "max_minutes")) ∧
    ((∀ m ∈ f.max_minutes, 0 ≤ m) →
      ∃ res, searchEngine f repo = .ok res ∧
        (res.limit : Int) = min 100 (max 1 f.limit) ∧
        (res.offset : Int) = max 0 f.offset) := by
  constructor
  · rintro ⟨m, hm, hneg⟩
    unfold searchEngine
    rw [if_pos]
    rw [hm]
    simpa using hneg
  · intro hmm
    refine ⟨_, searchEngine_ok repo hmm, ?_, ?_⟩
    · exact Int.toNat_of_nonneg (by omega)
    · exact Int.toNat_of_nonneg (by omega)

/-- Witness for C5: `max_minutes = -5` is rejected, and valid filters
come back with their clamped limit and offset. -/
theorem searchEngine_validation_witness :
    searchEngine negMinutesFilters [] = .error (.invalidFilter "max_minutes") ∧
      ∃ res, searchEngine sampleFilters [] = .ok res ∧
        (res.limit : Int) = min 100 (max 1 sampleFilters.limit) ∧
        (res.offset : Int) = max 0 sampleFilters.offset :=
  ⟨(searchEngine_validation negMinutesFilters []).1 ⟨-5, rfl, by decide⟩,
    (searchEngine_validation sampleFilters []).2 (by decide)⟩

/-! ### Parser Selector -/

/-- C6: with remote parsing enabled, whenever the Remote Parser Adapter
fails with any `UpstreamError` the composed parse function still returns
a valid `ParsedQuery` — the local heuristic result — with the
degraded-mode signal set, and no error reaches the caller. -/
theorem selectParse_fallback (vocab : List String)
    (remote : String → Except UpstreamError ParsedQuery) (raw : String)
    (e : UpstreamError) (h : remote raw = .error e) :
    selectParse true vocab remote raw =
      { query := parsePrompt vocab raw, degraded := true } ∧
      1 ≤ (selectParse true vocab remote raw).query.num_meals ∧
      1 ≤ (selectParse true vocab remote raw).query.serves := by
  have heq : selectParse true vocab remote raw =
      { query := parsePrompt vocab raw, degraded := true } := by
    simp [selectParse, h]
  rw [heq]
  exact ⟨rfl, num_meals_pos vocab raw, serves_pos vocab raw⟩

/-- Witness for C6: a remote parse that always times out falls back to
the local heuristic parse in degraded mode. -/
theorem selectParse_fallback_witness :
    selectParse true sampleVocab failingRemote promptBoth =
      { query := parsePrompt sampleVocab promptBoth, degraded := true } ∧
      1 ≤ (selectParse true sampleVocab failingRemote promptBoth).query.num_meals ∧
      1 ≤ (selectParse true sampleVocab failingRemote promptBoth).query.serves :=
  selectParse_fallback sampleVocab failingRemote promptBoth .timeout rfl

/-! ### Frontend -/

/-- C9: when a plan or search request fails (network error or non-2xx
response), the handler leaves the displayed state in its cleared form —
recipes empty, parsedQuery and searchMeta `null`, noResults false — and
sets only the error message (with loading reset by `finally`). -/
theorem handlers_error_path (s : AppState)
    (oP : FetchOutcome PlanResponse) (oS : FetchOutcome SearchResponse)
    (hP : oP.failed = true) (hS : oS.failed = true) :
    ((handlePlanSubmit s oP).recipes = [] ∧
      (handlePlanSubmit s oP).parsedQuery = none ∧
      (handlePlanSubmit s oP).searchMeta = none ∧
      (handlePlanSubmit s oP).noResults = false ∧
      (handlePlanSubmit s oP).loading = false ∧
      (handlePlanSubmit s oP).error = planErrorMsg) ∧
    ((handleSearchSubmit s oS).recipes = [] ∧
      (handleSearchSubmit s oS).parsedQuery = none ∧
      (handleSearchSubmit s oS).searchMeta = none ∧
      (handleSearchSubmit s oS).noResults = false ∧
      (handleSearchSubmit s oS).loading = false ∧
      (handleSearchSubmit s oS).error = searchErrorMsg) := by
  constructor
  · cases oP with
    | networkError => exact ⟨rfl, rfl, rfl, rfl, rfl, rfl⟩
    | httpError st => exact ⟨rfl, rfl, rfl, rfl, rfl, rfl⟩
    | success d => simp [FetchOutcome.failed] at hP
  · cases oS with
    | networkError => exact ⟨rfl, rfl, rfl, rfl, rfl, rfl⟩
    | httpError st => exact ⟨rfl, rfl, rfl, rfl, rfl, rfl⟩
    | success d => simp [FetchOutcome.failed] at hS

/-- Witness for C9: a network failure on both handlers from a state full
of stale data. -/
theorem handlers_error_path_witness :
    ((handlePlanSubmit sampleState .networkError).recipes = [] ∧
      (handlePlanSubmit sampleState .networkError).parsedQuery = none ∧
      (handlePlanSubmit sampleState .networkError).searchMeta = none ∧
      (handlePlanSubmit sampleState .networkError).noResults = false ∧
      (handlePlanSubmit sampleState .networkError).loading = false ∧
      (handlePlanSubmit sampleState .networkError).error = planErrorMsg) ∧
    ((handleSearchSubmit sampleState .networkError).recipes = [] ∧
      (handleSearchSubmit sampleState .networkError).parsedQuery = none ∧
      (handleSearchSubmit sampleState .networkError).searchMeta = none ∧
      (handleSearchSubmit sampleState .networkError).noResults = false ∧
      (handleSearchSubmit sampleState .networkError).loading = false ∧
      (handleSearchSubmit sampleState .networkError).error = searchErrorMsg) :=
  handlers_error_path sampleState .networkError .networkError rfl rfl

theorem toFixed1_ne_na (q : ℚ) : toFixed1 q ≠ "N/A" := by
  unfold toFixed1
  intro hcon
  have hd := congrArg String.data hcon
  simp only [String.data_append] at hd
  have hmem : ('.' : Char) ∈
      ((if round (q * 10) < 0 then "-" else "").data ++
        (toString ((round (q * 10)).natAbs / 10)).data ++ ".".data ++
        (toString ((round (q * 10)).natAbs % 10)).data) := by
    simp
  rw [hd] at hmem
  revert hmem
  decide

/-- C10 counterexample: on the input value `"N/A"` itself,
`formatNutritionValue` returns the string `"N/A"` although the value is
neither `null` nor `undefined`, so "returns `N/A` exactly when the value
is null or undefined" fails as stated. -/
theorem formatNutritionValue_na_cex :
    formatNutritionValue (JSVal.str "N/A") = JSVal.str "N/A" ∧
      JSVal.str "N/A" ≠ JSVal.null ∧ JSVal.str "N/A" ≠ JSVal.undefined := by
  refine ⟨rfl, ?_, ?_⟩ <;> intro h <;> exact JSVal.noConfusion h

/-- C10 (amended): `formatNutritionValue` returns `"N/A"` exactly when
the value is `null`, `undefined`, or already the string `"N/A"` itself;
a number passes through unchanged when integral and is otherwise
formatted to one decimal place; any other value is returned unchanged —
absent nutrition fields render as unavailable, never as zero. -/
theorem formatNutritionValue_spec (v : JSVal) :
    (formatNutritionValue v = .str "N/A" ↔
      (v = .null ∨ v = .undefined ∨ v = .str "N/A")) ∧
    (∀ q : ℚ, v = .num q →
      formatNutritionValue v = if q.den = 1 then .num q else .str (toFixed1 q)) ∧
    (v ≠ .null → v ≠ .undefined → (∀ q : ℚ, v ≠ .num q) →
      formatNutritionValue v = v) := by
  refine ⟨?_, ?_, ?_⟩
  · cases v with
    | null => simp [formatNutritionValue]
    | undefined => simp [formatNutritionValue]
    | num q =>
      simp only [formatNutritionValue]
      constructor
      · intro h
        split at h
        · exact absurd h (by simp)
        · exact absurd h (by simp [toFixed1_ne_na q])
      · rintro (h | h | h) <;> exact JSVal.noConfusion h
    | str s => simp [formatNutritionValue]
    | bool b =>
      simp only [formatNutritionValue]
      constructor
      · intro h
        exact JSVal.noConfusion h
      · rintro (h | h | h) <;> exact JSVal.noConfusion h
  · rintro q rfl
    rfl
  · intro h1 h2 h3
    cases v with
    | null => exact absurd rfl h1
    | undefined => exact absurd rfl h2
    | num q => exact absurd rfl (h3 q)
    | str s => rfl
    | bool b => rfl

/-- Witness for C10: a non-null, non-undefined, non-number value passes
through unchanged. -/
theorem formatNutritionValue_spec_witness :
    formatNutritionValue (JSVal.bool true) = JSVal.bool true :=
  (formatNutritionValue_spec (JSVal.bool true)).2.2
    (fun h => JSVal.noConfusion h) (fun h => JSVal.noConfusion h)
    (fun _ h => JSVal.noConfusion h)

end Panion
